import Mathlib

/-!
Verification of the immich-ppdl download pipeline (immich-ppdl.py).

Shallow embedding: the per-asset worker logic (`fetch_asset`, the body of
`fetch_assets`) is modelled as pure functions producing an explicit trace of
external effects (network requests, file writes/deletes, directory creation,
stdout prints); the filesystem is an explicit state threaded through; the
paginated lister (`search_assets`) is modelled with explicit fuel; the
producer/worker/queue interleaving of `main` is a small-step transition system.
External collaborators (the `requests` transport, `hashlib.sha1`,
`base64.decodebytes`) are parameters: SHA-1 is an abstract digest function and
base64 decoding an abstract function that may fail (`binascii.Error`), exactly
as the program only ever compares digests and catches decoding failures.
-/

namespace ImmichPpdl

/-- Byte strings (file contents, digests) as lists of naturals. -/
abbrev Bytes := List Nat

/-- A filesystem path, as its list of components. -/
abbrev FsPath := List String

/-- Calendar components of a Python `datetime` (the program only reads
`year`, `month`, `day` of `asset.localDateTime`).  Python guarantees
`1 ≤ year ≤ 9999`, `1 ≤ month ≤ 12`, `1 ≤ day ≤ 31`. -/
structure Date where
  year : Nat
  month : Nat
  day : Nat
deriving DecidableEq

/-- The `Asset` pydantic model: the fields consumed by the pipeline. -/
structure Asset where
  id : String
  /-- base64 encoded sha1 hash -/
  checksum : String
  createdAt : Date
  fileCreatedAt : Date
  localDateTime : Date
  originalFileName : String
  originalPath : String
deriving DecidableEq

/-- The `Settings` fields the fetch pipeline reads. -/
structure Settings where
  immich_api_url : String
  immich_api_key : String
  person_id : String
  save_to : FsPath
  threads : Nat
  dry : Bool
deriving DecidableEq

/-- External primitives: `hashlib.sha1` as an abstract digest function over the
hashed bytes (`hasher.update` per chunk computes the digest of the
concatenation of all chunks), and `base64.decodebytes`, which raises
`binascii.Error` on bad padding — modelled as `none`. -/
structure Crypto where
  sha1 : Bytes → Bytes
  b64decode : String → Option Bytes

/-- `str.encode()`: the bytes of a string (codepoints; the program only ever
feeds the result to the abstract `sha1`, so only injectivity-of-intent
matters). -/
def strBytes (s : String) : Bytes :=
  s.toList.map Char.toNat

/-- Python `f"{n:02d}"`: decimal rendering, left-padded with `0` to width 2. -/
def pad2 (n : Nat) : String :=
  if n < 10 then "0" ++ Nat.repr n else Nat.repr n

/-- Lines 148-156: the destination path
`settings.save_to / f"{date.year}" / f"{date.month:02d}" / f"{date.day:02d}"
/ asset.originalFileName` where `date = asset.localDateTime`.
Note the year is rendered by `f"{date.year}"`, with no zero-padding. -/
def destPath (s : Settings) (a : Asset) : FsPath :=
  s.save_to ++
    [Nat.repr a.localDateTime.year, pad2 a.localDateTime.month,
     pad2 a.localDateTime.day, a.originalFileName]

/-- Line 133: `f"{settings.immich_api_url}/assets/{asset.id}/original"`. -/
def assetUrl (s : Settings) (a : Asset) : String :=
  s.immich_api_url ++ "/assets/" ++ a.id ++ "/original"

/-- Association-list lookup for the file store. -/
def findVal (p : FsPath) : List (FsPath × Bytes) → Option Bytes
  | [] => none
  | (q, b) :: rest => if q = p then some b else findVal p rest

/-- Remove every binding for `p`. -/
def eraseKey (p : FsPath) : List (FsPath × Bytes) → List (FsPath × Bytes)
  | [] => []
  | (q, b) :: rest => if q = p then eraseKey p rest else (q, b) :: eraseKey p rest

/-- The local filesystem: regular files with contents, plus directories. -/
structure FS where
  files : List (FsPath × Bytes)
  dirs : List FsPath
deriving DecidableEq

/-- `Path.exists()` for the destination (a file or a directory). -/
def FS.pathExists (fs : FS) (p : FsPath) : Bool :=
  (findVal p fs.files).isSome || fs.dirs.contains p

/-- `path.parent.exists()`. -/
def FS.dirExists (fs : FS) (p : FsPath) : Bool :=
  fs.dirs.contains p

/-- `fs.fileContents p` is the content of the regular file at `p`, if any. -/
def FS.fileContents (fs : FS) (p : FsPath) : Option Bytes :=
  findVal p fs.files

/-- One observable external action of the worker. -/
inductive Effect where
  /-- `session.get(url, stream=True)` — the download request. -/
  | netGet (url : String)
  /-- `path.parent.mkdir(parents=True, exist_ok=True)`. -/
  | mkdirs (dir : FsPath)
  /-- the destination file is opened with `"wb"` and ends up holding `data`. -/
  | fileWrite (p : FsPath) (data : Bytes)
  /-- `path.unlink(missing_ok=True)` — removing a missing file is a no-op. -/
  | fileDelete (p : FsPath)
  /-- `print(path)` in dry-run mode. -/
  | printPath (p : FsPath)
deriving DecidableEq

/-- All ancestors created by `mkdir(parents=True)`. -/
def allParents (d : FsPath) : List FsPath :=
  (List.range d.length).map (fun i => d.take (i + 1))

/-- Apply one effect to the filesystem state. -/
def FS.applyEffect (fs : FS) : Effect → FS
  | .netGet _ => fs
  | .mkdirs d => { fs with dirs := allParents d ++ fs.dirs }
  | .fileWrite p b => { fs with files := (p, b) :: eraseKey p fs.files }
  | .fileDelete p => { fs with files := eraseKey p fs.files }
  | .printPath _ => fs

/-- Apply a trace of effects, left to right. -/
def FS.applyTrace (fs : FS) (tr : List Effect) : FS :=
  tr.foldl FS.applyEffect fs

/-- What `session.get(url, stream=True)` delivers for one asset:
either the request or `raise_for_status()` fails before the destination file
is ever opened, or the body streams as a list of chunks, possibly with a
transport error mid-stream (chunks already written stay written). -/
inductive DlResult where
  | fail (e : String)
  | chunks (cs : List Bytes) (err : Option String)
deriving DecidableEq

/-- The distinguishable per-asset exceptions caught by the worker:
transport/HTTP errors from `requests`, `binascii.Error` from
`base64.decodebytes`, and the explicit `Exception("hash mismatched")`. -/
inductive FetchErr where
  | transport (e : String)
  | decodeErr
  | hashMismatched
deriving DecidableEq

/-- Lines 118-127 (`download_and_sha1`): stream the response into the
destination file while hashing each chunk as it is written.  Returns the final
content of the destination file (`none` if it was never opened, i.e. the
request itself or `raise_for_status()` failed first) and either the digest of
exactly the written bytes or the propagated transport error. -/
def download_and_sha1 (c : Crypto) (dl : DlResult) : Option Bytes × Except String Bytes :=
  match dl with
  | .fail e => (none, .error e)
  | .chunks cs none => (some cs.flatten, .ok (c.sha1 cs.flatten))
  | .chunks cs (some e) => (some cs.flatten, .error e)

/-- Lines 130-138 (`fetch_asset`): ensure the parent directory exists, download
and hash, then check the base64-decoded declared checksum against the content
hash and the hash of `"path:" + originalPath` (Immich uses the path hash for
external-library files); raise `Exception("hash mismatched")` if neither
matches.  Returns the effect trace and the outcome. -/
def fetch_asset (c : Crypto) (net : String → DlResult) (s : Settings) (fs : FS)
    (a : Asset) (path : FsPath) : List Effect × Except FetchErr Unit :=
  let mk := if fs.dirExists path.dropLast then [] else [Effect.mkdirs path.dropLast]
  let url := assetUrl s a
  let dl := download_and_sha1 c (net url)
  let effs := mk ++ [Effect.netGet url] ++
    (match dl.1 with
     | none => []
     | some b => [Effect.fileWrite path b])
  match dl.2 with
  | .error e => (effs, .error (.transport e))
  | .ok file_hash =>
    let path_hash := c.sha1 (strBytes ("path:" ++ a.originalPath))
    match c.b64decode a.checksum with
    | none => (effs, .error .decodeErr)
    | some chk =>
      if chk = file_hash ∨ chk = path_hash then (effs, .ok ())
      else (effs, .error .hashMismatched)

/-- What the worker reports for one dequeued asset. -/
inductive Outcome where
  /-- `logger.debug(... skip existing ...)` -/
  | skipped
  /-- `print(path)` under `--dry` -/
  | dryListed
  /-- `logger.info(... save to ...)` -/
  | saved
  /-- `logger.error(... failed to download ...)` -/
  | failed (e : FetchErr)
deriving DecidableEq

/-- Lines 148-171: the body of the worker loop for one dequeued asset —
resolve the path, skip if it exists, print under dry-run, otherwise run
`fetch_asset` under `try`, and on any exception delete the destination
(missing-ok) and record the failure. -/
def processOne (c : Crypto) (net : String → DlResult) (s : Settings) (fs : FS)
    (a : Asset) : List Effect × Outcome :=
  let path := destPath s a
  if fs.pathExists path then ([], .skipped)
  else if s.dry then ([Effect.printPath path], .dryListed)
  else
    match fetch_asset c net s fs a path with
    | (effs, .ok _) => (effs, .saved)
    | (effs, .error e) => (effs ++ [Effect.fileDelete path], .failed e)

/-- Lines 141-171 (`fetch_assets`): the worker loop over the finite sequence of
queue items this worker dequeues, threading the filesystem; `none` is the
sentinel on which the loop breaks. -/
def fetch_assets (c : Crypto) (net : String → DlResult) (s : Settings) :
    FS → List (Option Asset) → List (Asset × Outcome) × FS
  | fs, [] => ([], fs)
  | fs, none :: _ => ([], fs)
  | fs, some a :: rest =>
    let r := processOne c net s fs a
    let fs2 := fs.applyTrace r.1
    let rec' := fetch_assets c net s fs2 rest
    ((a, r.2) :: rec'.1, rec'.2)

/-! ### Pagination (`search_assets`, lines 97-115) -/

/-- The parsed body of one `/search/metadata` response
(`SearchAssetResponse.AssetResponse`). -/
structure AssetResponse where
  items : List Asset
  nextPage : Option String
deriving DecidableEq

/-- The value of a string of decimal digit characters. -/
def digitsVal (ds : List Char) : Nat :=
  ds.foldl (fun acc c => 10 * acc + (c.toNat - 48)) 0

/-- Every character is a decimal digit. -/
def allDigits (ds : List Char) : Bool :=
  ds.all (fun c => decide (48 ≤ c.toNat) && decide (c.toNat ≤ 57))

/-- Python `int(s)` on a token: optional sign then decimal digits
(`none` models `ValueError`; whitespace/underscore forms are not modelled
since tokens are plain page numbers). -/
def pyInt (s : String) : Option Int :=
  match s.toList with
  | [] => none
  | c :: ds =>
    if c = '-' then
      if ds ≠ [] ∧ allDigits ds then some (-(digitsVal ds : Int)) else none
    else if c = '+' then
      if ds ≠ [] ∧ allDigits ds then some ((digitsVal ds : Int)) else none
    else if allDigits (c :: ds) then some ((digitsVal (c :: ds) : Int))
    else none

/-- Line 114, `page = int(nextPage) if nextPage else None`, combined with the
`while page:` truthiness test: what the cursor becomes after one response. -/
inductive Cursor where
  /-- token absent, or the empty string (falsy): `page` becomes `None`. -/
  | stop
  /-- `int()` raises `ValueError`: the generator aborts. -/
  | fatal
  /-- token parses: `page` becomes `k` (the loop then continues iff `k ≠ 0`). -/
  | next (k : Int)
deriving DecidableEq

/-- Parse the optional next-page token as line 114 does. -/
def nextCursor : Option String → Cursor
  | none => .stop
  | some s =>
    if s = "" then .stop
    else
      match pyInt s with
      | none => .fatal
      | some k => .next k

/-- How a (fuel-bounded) run of the listing loop ended. -/
inductive Status where
  /-- the `while page:` condition became falsy: normal termination. -/
  | finished
  /-- an exception escaped the generator (unparseable token). -/
  | fatal
  /-- modelling fuel ran out (the Python loop would keep going). -/
  | fuelOut
deriving DecidableEq

/-- Lines 97-115 (`search_assets`): execute the listing loop starting at page
`p`, returning the pages requested, the assets yielded (the items of a page
are yielded after the cursor update, so a parse failure drops the items of
the current page), and how the loop ended.  `fuel` bounds the number of iterations. -/
def searchRun (remote : Int → AssetResponse) : Nat → Int → List Int × List Asset × Status
  | 0, _ => ([], [], .fuelOut)
  | fuel + 1, p =>
    let resp := remote p
    match nextCursor resp.nextPage with
    | .stop => ([p], resp.items, .finished)
    | .fatal => ([p], [], .fatal)
    | .next k =>
      if k = 0 then ([p], resp.items, .finished)
      else
        let r := searchRun remote fuel k
        (p :: r.1, resp.items ++ r.2.1, r.2.2)

/-- `search_assets`: the listing starts with `page = 1`. -/
def search_assets (remote : Int → AssetResponse) (fuel : Nat) :
    List Int × List Asset × Status :=
  searchRun remote fuel 1

/-- `isChain remote ps`: `ps` is a complete page trajectory — consecutive
requests chained by present, parseable, nonzero next-page tokens, the last
token of the last page absent or empty. -/
def isChain (remote : Int → AssetResponse) : List Int → Bool
  | [] => false
  | [p] => decide (nextCursor (remote p).nextPage = .stop)
  | p :: q :: rest =>
    decide (q ≠ 0) && decide (nextCursor (remote p).nextPage = .next q) &&
      isChain remote (q :: rest)

/-! ### The dispatch pipeline (`main`, lines 174-212) -/

/-- A queue element: an asset, or the `None` sentinel (line 208). -/
abbrev QItem := Option Asset

/-- Whether a worker thread is still in its loop or has broken out on the
sentinel (lines 144-147). -/
inductive WStatus where
  | running
  | done
deriving DecidableEq

/-- Pipeline state: what the producer still has to enqueue (in program order:
all listed assets, then one sentinel per thread, lines 204-208), the sequence
already enqueued (`history`, a ghost for stating properties), the FIFO queue
contents, the worker statuses, and whether "All done" has been reported
(line 212). -/
structure PState where
  toPut : List QItem
  history : List QItem
  queue : List QItem
  workers : List WStatus
  reported : Bool
deriving DecidableEq

/-- Initial state: `n` workers spawned (lines 195-203), producer about to feed
every listed asset then `n` sentinels. -/
def initState (n : Nat) (assets : List Asset) : PState :=
  { toPut := assets.map some ++ List.replicate n none
    history := []
    queue := []
    workers := List.replicate n .running
    reported := false }

/-- Interleaved small-step semantics of the pipeline.  `cap` is the queue bound
`Queue(maxsize=settings.threads)` (line 193): `queue.put` only proceeds while
the queue holds fewer than `cap` items, otherwise the producer blocks.
`queue.get` pops the front (FIFO); a worker that pops the sentinel leaves its
loop; `join` returns — and "All done" is reported — only once every worker is
done (lines 210-212). -/
inductive Step (cap : Nat) : PState → PState → Prop where
  | put {s : PState} (x : QItem) (rest : List QItem) :
      s.toPut = x :: rest → s.queue.length < cap →
      Step cap s { s with toPut := rest, history := s.history ++ [x],
                          queue := s.queue ++ [x] }
  | takeAsset {s : PState} (a : Asset) (q : List QItem) (i : Nat) :
      s.queue = some a :: q → s.workers.get? i = some .running →
      Step cap s { s with queue := q }
  | takeSentinel {s : PState} (q : List QItem) (i : Nat) :
      s.queue = none :: q → s.workers.get? i = some .running →
      Step cap s { s with queue := q, workers := s.workers.set i .done }
  | report {s : PState} :
      s.toPut = [] → (∀ w ∈ s.workers, w = .done) → s.reported = false →
      Step cap s { s with reported := true }

/-- States reachable from `initState n assets` under `Step n`
(in `main`, the queue capacity and the worker count are both
`settings.threads`). -/
inductive Reach (n : Nat) (assets : List Asset) : PState → Prop where
  | init : Reach n assets (initState n assets)
  | step {s s' : PState} : Reach n assets s → Step n s s' → Reach n assets s'

/-- The pipeline invariant: the enqueue history plus the pending items are
exactly the listed assets followed by `n` sentinels; the queue never exceeds
the capacity `n`; there are always `n` workers; and once "All done" is
reported, nothing is pending and every worker has exited. -/
theorem reach_invariant {n : Nat} {assets : List Asset} {s : PState}
    (h : Reach n assets s) :
    s.history ++ s.toPut = assets.map some ++ List.replicate n none ∧
    s.queue.length ≤ n ∧
    s.workers.length = n ∧
    (s.reported = true → s.toPut = [] ∧ ∀ w ∈ s.workers, w = WStatus.done) := by
  induction h with
  | init => simp [initState]
  | step hr hstep ih =>
    obtain ⟨ih1, ih2, ih3, ih4⟩ := ih
    cases hstep with
    | put x rest htp hlen =>
      refine ⟨?_, ?_, ih3, ?_⟩
      · rw [htp] at ih1
        simpa [List.append_assoc] using ih1
      · simpa using hlen
      · intro hrep
        rw [(ih4 hrep).1] at htp
        exact absurd htp (by simp)
    | takeAsset a q i hq hw =>
      refine ⟨ih1, ?_, ih3, ih4⟩
      rw [hq] at ih2
      simp at ih2
      simpa using Nat.le_of_succ_le ih2
    | takeSentinel q i hq hw =>
      refine ⟨ih1, ?_, by simpa using ih3, ?_⟩
      · rw [hq] at ih2
        simp at ih2
        simpa using Nat.le_of_succ_le ih2
      · intro hrep
        refine ⟨(ih4 hrep).1, ?_⟩
        intro w hw'
        rcases List.mem_or_eq_of_mem_set hw' with hmem | heq
        · exact (ih4 hrep).2 w hmem
        · exact heq
    | report htp hdone hrep =>
      exact ⟨ih1, ih2, ih3, fun _ => ⟨htp, hdone⟩⟩

/-! ### Helper lemmas -/

/-- After removing every binding for `p`, looking up `p` finds nothing. -/
theorem findVal_eraseKey (p : FsPath) (l : List (FsPath × Bytes)) :
    findVal p (eraseKey p l) = none := by
  induction l with
  | nil => rfl
  | cons hd tl ih =>
    obtain ⟨q, b⟩ := hd
    by_cases hq : q = p
    · simpa [eraseKey, hq] using ih
    · simp [eraseKey, findVal, hq, ih]

/-- A trace ending in the best-effort delete leaves no file at the path. -/
theorem fileContents_after_delete (fs : FS) (tr : List Effect) (p : FsPath) :
    (fs.applyTrace (tr ++ [Effect.fileDelete p])).fileContents p = none := by
  simp [FS.applyTrace, List.foldl_append, FS.applyEffect, FS.fileContents,
    findVal_eraseKey]

/-- `f"{n:02d}"` renders every two-digit-or-less value on exactly 2 digits. -/
theorem pad2_length : ∀ n, n < 100 → (pad2 n).length = 2 := by decide

/-! ### Shared concrete fixtures for witnesses and counterexamples -/

def wDate : Date := ⟨2024, 3, 7⟩

def wAsset : Asset :=
  { id := "a1", checksum := "q80=", createdAt := wDate, fileCreatedAt := wDate,
    localDateTime := wDate, originalFileName := "a.jpg",
    originalPath := "/x/a.jpg" }

def wSettings : Settings :=
  { immich_api_url := "http://h/api", immich_api_key := "k", person_id := "p",
    save_to := ["root"], threads := 2, dry := false }

def wSettingsDry : Settings :=
  { wSettings with dry := true }

/-- A digest oracle under which every content digest is `[1]` and every declared
checksum decodes to `[2]` — so no checksum ever matches. -/
def wCrypto : Crypto :=
  { sha1 := fun _ => [1], b64decode := fun _ => some [2] }

/-- A digest oracle whose base64 decoding always fails (bad padding). -/
def wCryptoBad : Crypto :=
  { sha1 := fun _ => [1], b64decode := fun _ => none }

/-- A transport that always streams the single chunk `[9, 9]` successfully. -/
def wNet : String → DlResult := fun _ => DlResult.chunks [[9, 9]] none

/-- A transport that always fails before the file is opened. -/
def wNetFail : String → DlResult := fun _ => DlResult.fail "boom"

def wFsEmpty : FS := { files := [], dirs := [] }

/-- A filesystem already holding a file at the destination of `wAsset`. -/
def wFsHave : FS :=
  { files := [(destPath wSettings wAsset, [])], dirs := [] }

def wState1 : PState :=
  { toPut := [none], history := [some wAsset], queue := [some wAsset],
    workers := [WStatus.running], reported := false }

def wState2 : PState :=
  { toPut := [none], history := [some wAsset], queue := [],
    workers := [WStatus.running], reported := false }

def wFinal : PState :=
  { toPut := [], history := [none], queue := [], workers := [WStatus.done],
    reported := true }

/-! ### Claim theorems -/

/-- C8: in every reachable pipeline state the shared queue holds at most `n`
items (`n` = configured worker count = `Queue(maxsize)`), and from a state
whose queue is full no step enqueues anything: the enqueue history is
unchanged and the queue does not grow — the producer blocks until a worker
dequeues. -/
theorem queue_bounded {n : Nat} {assets : List Asset} {s s' : PState}
    (h : Reach n assets s) (hstep : Step n s s') :
    s.queue.length ≤ n ∧
    (s.queue.length = n →
      s'.history = s.history ∧ s'.queue.length ≤ s.queue.length) := by
  refine ⟨(reach_invariant h).2.1, ?_⟩
  intro hfull
  cases hstep with
  | put x rest htp hlen => exact absurd hfull (by omega)
  | takeAsset a q i hq hw =>
    exact ⟨rfl, by rw [hq]; simp only [List.length_cons]; omega⟩
  | takeSentinel q i hq hw =>
    exact ⟨rfl, by rw [hq]; simp only [List.length_cons]; omega⟩
  | report htp hdone hrep => exact ⟨rfl, Nat.le_refl _⟩

/-- C8 witness: a concrete reachable state with a full one-slot queue, and the
only possible kind of step from it (a worker dequeue) preserves the history. -/
theorem queue_bounded_witness :
    wState1.queue.length ≤ 1 ∧
    (wState1.queue.length = 1 →
      wState2.history = wState1.history ∧
      wState2.queue.length ≤ wState1.queue.length) :=
  queue_bounded
    (show Reach 1 [wAsset] wState1 from
      Reach.step Reach.init (Step.put (some wAsset) [none] rfl (by decide)))
    (Step.takeAsset wAsset [] 0 rfl rfl)

/-- C9: in every reachable state, once "All done" is reported every one of the
`n` workers has exited on its sentinel and the enqueue history is exactly the
listed assets followed by exactly `n` sentinels; moreover a sentinel is only
ever enqueued after every listed asset has been enqueued. -/
theorem sentinel_shutdown {n : Nat} {assets : List Asset} {s : PState}
    (h : Reach n assets s) :
    (s.reported = true →
      s.workers = List.replicate n WStatus.done ∧
      s.history = assets.map some ++ List.replicate n none ∧
      s.history.count none = n) ∧
    (none ∈ s.history → assets.map some <+: s.history) := by
  obtain ⟨h1, h2, h3, h4⟩ := reach_invariant h
  constructor
  · intro hrep
    obtain ⟨htp, hdone⟩ := h4 hrep
    rw [htp, List.append_nil] at h1
    refine ⟨List.eq_replicate_iff.2 ⟨h3, hdone⟩, h1, ?_⟩
    have hz : (assets.map some).count (none : QItem) = 0 := by
      rw [List.count_eq_zero]
      simp
    rw [h1, List.count_append, hz, List.count_replicate_self, Nat.zero_add]
  · intro hmem
    have hpre : s.history <+: assets.map some ++ List.replicate n none :=
      ⟨s.toPut, h1⟩
    rcases List.prefix_or_prefix_of_prefix hpre
        (List.prefix_append (assets.map some) (List.replicate n none)) with
      hcase | hcase
    · exact absurd (hcase.subset hmem) (by simp)
    · exact hcase

/-- C9 witness: a concrete completed run (one worker, empty listing): one
sentinel was enqueued, the worker exited on it, and only then was completion
reported. -/
theorem sentinel_shutdown_witness :
    (wFinal.reported = true →
      wFinal.workers = List.replicate 1 WStatus.done ∧
      wFinal.history = ([] : List Asset).map some ++ List.replicate 1 none ∧
      wFinal.history.count none = 1) ∧
    (none ∈ wFinal.history → ([] : List Asset).map some <+: wFinal.history) :=
  sentinel_shutdown
    (show Reach 1 [] wFinal from
      Reach.step (Reach.step (Reach.step Reach.init
        (Step.put none [] rfl (by decide)))
        (Step.takeSentinel [] 0 rfl rfl))
        (Step.report rfl (by decide) rfl))

/-- C3: if the resolved destination path already exists, processing the asset
performs no effect at all — no network request, no write, no deletion, no
directory creation — the asset is reported as skipped, and the worker moves on
to the rest of the queue; this holds whatever the dry-run flag is. -/
theorem skip_existing (c : Crypto) (net : String → DlResult) (s : Settings)
    (fs : FS) (a : Asset) (rest : List (Option Asset))
    (hex : fs.pathExists (destPath s a) = true) :
    processOne c net s fs a = ([], Outcome.skipped) ∧
    fetch_assets c net s fs (some a :: rest) =
      ((a, Outcome.skipped) :: (fetch_assets c net s fs rest).1,
       (fetch_assets c net s fs rest).2) := by
  have h1 : processOne c net s fs a = ([], Outcome.skipped) := by
    simp [processOne, hex]
  refine ⟨h1, ?_⟩
  simp [fetch_assets, h1, FS.applyTrace]

/-- C3 witness: a concrete filesystem already holding the destination file. -/
theorem skip_existing_witness :
    processOne wCrypto wNet wSettings wFsHave wAsset = ([], Outcome.skipped) ∧
    fetch_assets wCrypto wNet wSettings wFsHave [some wAsset] =
      ((wAsset, Outcome.skipped) ::
        (fetch_assets wCrypto wNet wSettings wFsHave []).1,
       (fetch_assets wCrypto wNet wSettings wFsHave []).2) :=
  skip_existing wCrypto wNet wSettings wFsHave wAsset [] (by decide)

/-- C7: with the dry-run flag set, processing any asset leaves the filesystem
untouched and performs no network request: the effect trace is empty (existing
destination) or the single stdout print of the would-be path, which is
reported instead of downloading. -/
theorem dry_run_no_effects (c : Crypto) (net : String → DlResult) (s : Settings)
    (fs : FS) (a : Asset) (hdry : s.dry = true) :
    ((processOne c net s fs a).1 = [] ∨
     (processOne c net s fs a).1 = [Effect.printPath (destPath s a)]) ∧
    fs.applyTrace (processOne c net s fs a).1 = fs ∧
    (fs.pathExists (destPath s a) = false →
      processOne c net s fs a =
        ([Effect.printPath (destPath s a)], Outcome.dryListed)) := by
  by_cases hex : fs.pathExists (destPath s a) = true
  · have h1 : processOne c net s fs a = ([], Outcome.skipped) := by
      simp [processOne, hex]
    refine ⟨Or.inl (by rw [h1]), by rw [h1]; rfl, ?_⟩
    intro hex'
    rw [hex'] at hex
    cases hex
  · have hex' : fs.pathExists (destPath s a) = false := by simpa using hex
    have h1 : processOne c net s fs a =
        ([Effect.printPath (destPath s a)], Outcome.dryListed) := by
      simp [processOne, hex', hdry]
    exact ⟨Or.inr (by rw [h1]), by rw [h1]; rfl, fun _ => h1⟩

/-- C7 witness: dry-run on an absent destination prints the path and does
nothing else. -/
theorem dry_run_no_effects_witness :
    ((processOne wCrypto wNet wSettingsDry wFsEmpty wAsset).1 = [] ∨
     (processOne wCrypto wNet wSettingsDry wFsEmpty wAsset).1 =
       [Effect.printPath (destPath wSettingsDry wAsset)]) ∧
    wFsEmpty.applyTrace (processOne wCrypto wNet wSettingsDry wFsEmpty wAsset).1 =
      wFsEmpty ∧
    (wFsEmpty.pathExists (destPath wSettingsDry wAsset) = false →
      processOne wCrypto wNet wSettingsDry wFsEmpty wAsset =
        ([Effect.printPath (destPath wSettingsDry wAsset)], Outcome.dryListed)) :=
  dry_run_no_effects wCrypto wNet wSettingsDry wFsEmpty wAsset rfl

/-- C1: with dry-run off and the destination absent, the worker reports `saved`
only if the download completed and the base64-decoded declared checksum equals
the SHA-1 digest of exactly the bytes written to the destination file, or the
SHA-1 of the string `"path:" + originalPath`; if the download completed but
neither form matches, the outcome is the `Exception("hash mismatched")`
failure and the destination file is not left on disk afterwards. -/
theorem hash_verified (c : Crypto) (net : String → DlResult) (s : Settings)
    (fs : FS) (a : Asset) (hdry : s.dry = false)
    (hex : fs.pathExists (destPath s a) = false) :
    ((processOne c net s fs a).2 = Outcome.saved →
      ∃ cs chk, net (assetUrl s a) = DlResult.chunks cs none ∧
        c.b64decode a.checksum = some chk ∧
        (chk = c.sha1 cs.flatten ∨
         chk = c.sha1 (strBytes ("path:" ++ a.originalPath)))) ∧
    (∀ cs chk, net (assetUrl s a) = DlResult.chunks cs none →
      c.b64decode a.checksum = some chk →
      chk ≠ c.sha1 cs.flatten →
      chk ≠ c.sha1 (strBytes ("path:" ++ a.originalPath)) →
      (processOne c net s fs a).2 = Outcome.failed FetchErr.hashMismatched ∧
      (fs.applyTrace (processOne c net s fs a).1).fileContents
        (destPath s a) = none) := by
  constructor
  · intro hsaved
    cases hnet : net (assetUrl s a) with
    | fail e =>
      simp [processOne, fetch_asset, download_and_sha1, hex, hdry, hnet] at hsaved
    | chunks cs err =>
      cases err with
      | some e =>
        simp [processOne, fetch_asset, download_and_sha1, hex, hdry, hnet] at hsaved
      | none =>
        cases hb : c.b64decode a.checksum with
        | none =>
          simp [processOne, fetch_asset, download_and_sha1, hex, hdry, hnet, hb]
            at hsaved
        | some chk =>
          by_cases hmatch : chk = c.sha1 cs.flatten ∨
              chk = c.sha1 (strBytes ("path:" ++ a.originalPath))
          · exact ⟨cs, chk, rfl, rfl, hmatch⟩
          · simp [processOne, fetch_asset, download_and_sha1, hex, hdry, hnet,
              hb, hmatch] at hsaved
  · intro cs chk hnet hb h1 h2
    have hfa : processOne c net s fs a =
        ((if fs.dirExists (destPath s a).dropLast then []
          else [Effect.mkdirs (destPath s a).dropLast]) ++
          [Effect.netGet (assetUrl s a),
           Effect.fileWrite (destPath s a) cs.flatten] ++
          [Effect.fileDelete (destPath s a)],
         Outcome.failed FetchErr.hashMismatched) := by
      simp [processOne, fetch_asset, download_and_sha1, hex, hdry, hnet, hb,
        h1, h2]
    rw [hfa]
    exact ⟨rfl, fileContents_after_delete fs _ (destPath s a)⟩

/-- C1 witness: under `wCrypto` no checksum matches, so the concrete run fails
with the hash mismatch and leaves no file. -/
theorem hash_verified_witness :
    (processOne wCrypto wNet wSettings wFsEmpty wAsset).2 =
      Outcome.failed FetchErr.hashMismatched ∧
    (wFsEmpty.applyTrace
        (processOne wCrypto wNet wSettings wFsEmpty wAsset).1).fileContents
      (destPath wSettings wAsset) = none :=
  (hash_verified wCrypto wNet wSettings wFsEmpty wAsset rfl (by decide)).2
    [[9, 9]] [2] rfl rfl (by decide) (by decide)

/-- C2: every per-asset failure (transport error, non-success status — both
surface as a transport failure of the download — decode error, or hash
mismatch) is caught by the worker: the failure is reported for that asset, the
trace ends with the best-effort delete (`missing_ok=True`, so an absent file
is not an error), the destination file is absent afterwards, and the loop
continues with the remaining queue items — no failure ends the loop. -/
theorem failure_recovered (c : Crypto) (net : String → DlResult) (s : Settings)
    (fs : FS) (a : Asset) (rest : List (Option Asset)) (e : FetchErr)
    (hout : (processOne c net s fs a).2 = Outcome.failed e) :
    processOne c net s fs a =
      ((fetch_asset c net s fs a (destPath s a)).1 ++
        [Effect.fileDelete (destPath s a)], Outcome.failed e) ∧
    (fs.applyTrace (processOne c net s fs a).1).fileContents
      (destPath s a) = none ∧
    fetch_assets c net s fs (some a :: rest) =
      ((a, Outcome.failed e) ::
        (fetch_assets c net s (fs.applyTrace (processOne c net s fs a).1)
          rest).1,
       (fetch_assets c net s (fs.applyTrace (processOne c net s fs a).1)
          rest).2) := by
  have h1 : processOne c net s fs a =
      ((fetch_asset c net s fs a (destPath s a)).1 ++
        [Effect.fileDelete (destPath s a)], Outcome.failed e) := by
    by_cases hex : fs.pathExists (destPath s a) = true
    · simp [processOne, hex] at hout
    · have hex' : fs.pathExists (destPath s a) = false := by simpa using hex
      by_cases hdry : s.dry = true
      · simp [processOne, hex', hdry] at hout
      · have hdry' : s.dry = false := by simpa using hdry
        rcases hfa : fetch_asset c net s fs a (destPath s a) with ⟨effs, res⟩
        cases res with
        | ok u => simp [processOne, hex', hdry', hfa] at hout
        | error e' =>
          have he : e' = e := by
            simpa [processOne, hex', hdry', hfa] using hout
          subst he
          simp [processOne, hex', hdry', hfa]
  refine ⟨h1, ?_, ?_⟩
  · rw [h1]
    exact fileContents_after_delete fs _ (destPath s a)
  · simp [fetch_assets, hout]

/-- C2 witness: a concrete transport failure is recovered — reported, file
absent, loop continues. -/
theorem failure_recovered_witness :
    processOne wCrypto wNetFail wSettings wFsEmpty wAsset =
      ((fetch_asset wCrypto wNetFail wSettings wFsEmpty wAsset
          (destPath wSettings wAsset)).1 ++
        [Effect.fileDelete (destPath wSettings wAsset)],
       Outcome.failed (FetchErr.transport "boom")) ∧
    (wFsEmpty.applyTrace
        (processOne wCrypto wNetFail wSettings wFsEmpty wAsset).1).fileContents
      (destPath wSettings wAsset) = none ∧
    fetch_assets wCrypto wNetFail wSettings wFsEmpty [some wAsset] =
      ((wAsset, Outcome.failed (FetchErr.transport "boom")) ::
        (fetch_assets wCrypto wNetFail wSettings
          (wFsEmpty.applyTrace
            (processOne wCrypto wNetFail wSettings wFsEmpty wAsset).1) []).1,
       (fetch_assets wCrypto wNetFail wSettings
          (wFsEmpty.applyTrace
            (processOne wCrypto wNetFail wSettings wFsEmpty wAsset).1) []).2) :=
  failure_recovered wCrypto wNetFail wSettings wFsEmpty wAsset []
    (FetchErr.transport "boom") (by decide)

/-- C10: if the declared checksum string fails base64 decoding, the download
request and the full write of the destination file still happen first, in that
order, before the decode error is raised; the error is then handled as an
ordinary per-asset failure: the fully written file is deleted, the failure is
reported for the asset, and the worker continues with the remaining items. -/
theorem decode_error_ordering (c : Crypto) (net : String → DlResult)
    (s : Settings) (fs : FS) (a : Asset) (rest : List (Option Asset))
    (cs : List Bytes) (hdry : s.dry = false)
    (hex : fs.pathExists (destPath s a) = false)
    (hb : c.b64decode a.checksum = none)
    (hnet : net (assetUrl s a) = DlResult.chunks cs none) :
    processOne c net s fs a =
      ((if fs.dirExists (destPath s a).dropLast then []
        else [Effect.mkdirs (destPath s a).dropLast]) ++
        [Effect.netGet (assetUrl s a),
         Effect.fileWrite (destPath s a) cs.flatten,
         Effect.fileDelete (destPath s a)],
       Outcome.failed FetchErr.decodeErr) ∧
    (fs.applyTrace (processOne c net s fs a).1).fileContents
      (destPath s a) = none ∧
    fetch_assets c net s fs (some a :: rest) =
      ((a, Outcome.failed FetchErr.decodeErr) ::
        (fetch_assets c net s (fs.applyTrace (processOne c net s fs a).1)
          rest).1,
       (fetch_assets c net s (fs.applyTrace (processOne c net s fs a).1)
          rest).2) := by
  have h1 : processOne c net s fs a =
      ((if fs.dirExists (destPath s a).dropLast then []
        else [Effect.mkdirs (destPath s a).dropLast]) ++
        [Effect.netGet (assetUrl s a),
         Effect.fileWrite (destPath s a) cs.flatten,
         Effect.fileDelete (destPath s a)],
       Outcome.failed FetchErr.decodeErr) := by
    simp [processOne, fetch_asset, download_and_sha1, hex, hdry, hnet, hb]
  refine ⟨h1, ?_, ?_⟩
  · rw [h1]
    have h2 := fileContents_after_delete fs
      ((if fs.dirExists (destPath s a).dropLast then []
        else [Effect.mkdirs (destPath s a).dropLast]) ++
        [Effect.netGet (assetUrl s a),
         Effect.fileWrite (destPath s a) cs.flatten]) (destPath s a)
    simpa [List.append_assoc] using h2
  · simp [fetch_assets, h1]

/-- C10 witness: a concrete asset whose checksum never decodes — the file is
fully downloaded and written, then deleted, and the worker goes on. -/
theorem decode_error_ordering_witness :
    processOne wCryptoBad wNet wSettings wFsEmpty wAsset =
      ((if wFsEmpty.dirExists (destPath wSettings wAsset).dropLast then []
        else [Effect.mkdirs (destPath wSettings wAsset).dropLast]) ++
        [Effect.netGet (assetUrl wSettings wAsset),
         Effect.fileWrite (destPath wSettings wAsset) [[9, 9]].flatten,
         Effect.fileDelete (destPath wSettings wAsset)],
       Outcome.failed FetchErr.decodeErr) ∧
    (wFsEmpty.applyTrace
        (processOne wCryptoBad wNet wSettings wFsEmpty wAsset).1).fileContents
      (destPath wSettings wAsset) = none ∧
    fetch_assets wCryptoBad wNet wSettings wFsEmpty [some wAsset] =
      ((wAsset, Outcome.failed FetchErr.decodeErr) ::
        (fetch_assets wCryptoBad wNet wSettings
          (wFsEmpty.applyTrace
            (processOne wCryptoBad wNet wSettings wFsEmpty wAsset).1) []).1,
       (fetch_assets wCryptoBad wNet wSettings
          (wFsEmpty.applyTrace
            (processOne wCryptoBad wNet wSettings wFsEmpty wAsset).1) []).2) :=
  decode_error_ordering wCryptoBad wNet wSettings wFsEmpty wAsset [] [[9, 9]]
    rfl (by decide) rfl rfl

/-- The page-chain lemma: along a trajectory of present, parseable, nonzero
tokens ending in an absent/empty token, the listing loop requests exactly the
pages of the trajectory and yields exactly the concatenation of their items,
terminating normally, for any sufficient fuel. -/
theorem searchRun_chain (remote : Int → AssetResponse) :
    ∀ (ps : List Int) (p : Int) (fuel : Nat),
      isChain remote (p :: ps) = true → ps.length + 1 ≤ fuel →
      searchRun remote fuel p =
        (p :: ps, ((p :: ps).map (fun q => (remote q).items)).flatten,
         Status.finished) := by
  intro ps
  induction ps with
  | nil =>
    intro p fuel hchain hfuel
    obtain ⟨f, rfl⟩ : ∃ f, fuel = f + 1 := ⟨fuel - 1, by omega⟩
    have hstop : nextCursor (remote p).nextPage = Cursor.stop := by
      simpa [isChain] using hchain
    simp [searchRun, hstop]
  | cons q rest ih =>
    intro p fuel hchain hfuel
    obtain ⟨f, rfl⟩ : ∃ f, fuel = f + 1 := ⟨fuel - 1, by omega⟩
    have h1 : q ≠ 0 ∧ nextCursor (remote p).nextPage = Cursor.next q ∧
        isChain remote (q :: rest) = true := by
      simpa [isChain, Bool.and_eq_true, decide_eq_true_eq, and_assoc]
        using hchain
    have hrec := ih q f h1.2.2 (by simp at hfuel; omega)
    simp [searchRun, h1.2.1, h1.1, hrec]

/-- C4: for a response sequence whose next-page chain eventually ends with an
absent token, `search_assets` terminates and yields exactly the concatenation
of the items of the fetched pages, in page order then within-page order — no
duplicates, no drops. -/
theorem search_assets_exact (remote : Int → AssetResponse) (ps : List Int)
    (fuel : Nat) (hchain : isChain remote (1 :: ps) = true)
    (hfuel : ps.length + 1 ≤ fuel) :
    search_assets remote fuel =
      (1 :: ps, (((1 : Int) :: ps).map (fun q => (remote q).items)).flatten,
       Status.finished) :=
  searchRun_chain remote ps 1 fuel hchain hfuel

def mkAsset (n : Nat) : Asset :=
  { id := Nat.repr n, checksum := "c", createdAt := ⟨2024, 1, 1⟩,
    fileCreatedAt := ⟨2024, 1, 1⟩, localDateTime := ⟨2024, 1, 2⟩,
    originalFileName := Nat.repr n ++ ".jpg",
    originalPath := "/lib/" ++ Nat.repr n ++ ".jpg" }

/-- A remote catalog with three pages of 2/2/1 assets chained 1 → 2 → 3. -/
def wRemote : Int → AssetResponse := fun p =>
  if p = 1 then { items := [mkAsset 1, mkAsset 2], nextPage := some "2" }
  else if p = 2 then { items := [mkAsset 3, mkAsset 4], nextPage := some "3" }
  else { items := [mkAsset 5], nextPage := none }

/-- C4 witness: the concrete three-page catalog is listed exactly. -/
theorem search_assets_exact_witness :
    search_assets wRemote 3 =
      ((1 : Int) :: [2, 3],
       (((1 : Int) :: [2, 3]).map (fun q => (wRemote q).items)).flatten,
       Status.finished) :=
  search_assets_exact wRemote [2, 3] 3 (by decide) (by decide)

/-- A normally-terminating run always records the page it started from as its
first request. -/
theorem searchRun_requests_head (remote : Int → AssetResponse) (f : Nat)
    (k : Int) (h : (searchRun remote f k).2.2 = Status.finished) :
    ∃ t, (searchRun remote f k).1 = k :: t := by
  cases f with
  | zero => simp [searchRun] at h
  | succ f =>
    simp only [searchRun] at h ⊢
    rcases hc : nextCursor (remote k).nextPage with _ | _ | m
    · exact ⟨[], by simp [hc]⟩
    · simp [hc] at h
    · by_cases hm : m = 0
      · exact ⟨[], by simp [hc, hm]⟩
      · exact ⟨(searchRun remote f m).1, by simp [hc, hm]⟩

/-- C6 (amended): if the next-page token is present and parses to a nonzero
integer `k`, the lister advances the cursor to `k` and issues a further search
request with that page number (the run continues from page `k`); and the loop
terminates normally right after the current page if and only if the token is
absent, is the empty string, or parses to the integer `0` (Python truthiness
of `if nextPage` and `while page`). -/
theorem cursor_advance (remote : Int → AssetResponse) (p k : Int) (fuel : Nat) :
    (nextCursor (remote p).nextPage = Cursor.next k → k ≠ 0 →
      searchRun remote (fuel + 1) p =
        (p :: (searchRun remote fuel k).1,
         (remote p).items ++ (searchRun remote fuel k).2.1,
         (searchRun remote fuel k).2.2)) ∧
    ((nextCursor (remote p).nextPage = Cursor.stop ∨
      nextCursor (remote p).nextPage = Cursor.next 0) ↔
      searchRun remote (fuel + 1) p =
        ([p], (remote p).items, Status.finished)) := by
  constructor
  · intro hc hk
    simp [searchRun, hc, hk]
  · constructor
    · intro hc
      rcases hc with hc | hc
      · simp [searchRun, hc]
      · simp [searchRun, hc]
    · intro heq
      rcases hc : nextCursor (remote p).nextPage with _ | _ | m
      · exact Or.inl rfl
      · simp [searchRun, hc] at heq
      · by_cases hm : m = 0
        · subst hm
          exact Or.inr rfl
        · simp only [searchRun, hc, if_neg hm] at heq
          have hst : (searchRun remote fuel m).2.2 = Status.finished := by
            have := congrArg (fun t => t.2.2) heq
            simpa using this
          obtain ⟨t, ht⟩ := searchRun_requests_head remote fuel m hst
          have hreq := congrArg (fun t => t.1) heq
          rw [ht] at hreq
          simp at hreq

/-- C6 witness (amended claim): with the concrete catalog, the token "2" of page 1
advances the run to page 2. -/
theorem cursor_advance_witness :
    searchRun wRemote 2 1 =
      ((1 : Int) :: (searchRun wRemote 1 2).1,
       (wRemote 1).items ++ (searchRun wRemote 1 2).2.1,
       (searchRun wRemote 1 2).2.2) :=
  (cursor_advance wRemote 1 2 1).1 (by decide) (by decide)

/-- A remote whose every response carries the present token `"0"`. -/
def zeroTokenRemote : Int → AssetResponse :=
  fun _ => { items := [mkAsset 9], nextPage := some "0" }

/-- C6 counterexample: the next-page token of the fetched response is present,
yet the run requests only page 1 and terminates normally — no further request
with the integer value `0` of the token is ever issued, refuting both "a present
token leads to a further request with that page number" and "terminates iff
the token is absent". -/
theorem cursor_zero_token_stops :
    (zeroTokenRemote 1).nextPage.isSome = true ∧
    search_assets zeroTokenRemote 5 =
      ([1], [mkAsset 9], Status.finished) := by
  constructor
  · rfl
  · rfl

def cDate : Date := ⟨500, 3, 7⟩

def cAsset : Asset :=
  { id := "x", checksum := "c", createdAt := cDate, fileCreatedAt := cDate,
    localDateTime := cDate, originalFileName := "x.jpg",
    originalPath := "/x.jpg" }

def cSettings : Settings :=
  { immich_api_url := "u", immich_api_key := "k", person_id := "p",
    save_to := ["root"], threads := 1, dry := false }

/-- C5 counterexample: Python `datetime` admits year 500, and
`f"{date.year}"` renders it as `"500"` — a 3-character component, not a
4-digit `YYYY`; month and day are still zero-padded. -/
theorem destPath_year_not_padded :
    destPath cSettings cAsset = ["root", "500", "03", "07", "x.jpg"] ∧
    (destPath cSettings cAsset)[1]? = some "500" ∧
    "500".length ≠ 4 := by
  refine ⟨by decide, by decide, by decide⟩

set_option maxRecDepth 4000 in
/-- `Nat.repr` renders every block `(k+1)*1000 + y`, `y < 1000`, `k < 9`, on
four digits (kernel evaluation in thousand-sized chunks). -/
theorem repr_thousands_length :
    ∀ k, k < 9 → ∀ y, y < 1000 → (Nat.repr ((k + 1) * 1000 + y)).length = 4 := by
  decide

/-- Four-digit years render on exactly 4 characters. -/
theorem repr_year_length (y : Nat) (h1 : 1000 ≤ y) (h2 : y ≤ 9999) :
    (Nat.repr y).length = 4 := by
  have hk : y / 1000 - 1 < 9 := by omega
  have hy : y % 1000 < 1000 := Nat.mod_lt _ (by omega)
  have h := repr_thousands_length (y / 1000 - 1) hk (y % 1000) hy
  have heq : (y / 1000 - 1 + 1) * 1000 + y % 1000 = y := by omega
  rwa [heq] at h

/-- C5 (amended): the destination path is
`saveRoot / <year, decimal, unpadded> / <month, 2 digits> / <day, 2 digits>
/ originalFileName` from the local-capture timestamp of the asset — a pure
function of the descriptor with no I/O and no failure mode; month and day are
zero-padded to exactly 2 digits, while the year renders as its decimal digits
without padding (hence 4 digits exactly when `1000 ≤ year ≤ 9999`). -/
theorem destPath_formula (s : Settings) (a : Asset)
    (hm : a.localDateTime.month ≤ 12) (hd : a.localDateTime.day ≤ 31)
    (hy1 : 1000 ≤ a.localDateTime.year) (hy2 : a.localDateTime.year ≤ 9999) :
    destPath s a = s.save_to ++
      [Nat.repr a.localDateTime.year, pad2 a.localDateTime.month,
       pad2 a.localDateTime.day, a.originalFileName] ∧
    (pad2 a.localDateTime.month).length = 2 ∧
    (pad2 a.localDateTime.day).length = 2 ∧
    (Nat.repr a.localDateTime.year).length = 4 :=
  ⟨rfl, pad2_length _ (by omega), pad2_length _ (by omega),
   repr_year_length _ hy1 hy2⟩

/-- C5 witness (amended claim): the concrete 2024-03-07 asset resolves to
`root/2024/03/07/a.jpg`. -/
theorem destPath_formula_witness :
    destPath wSettings wAsset = wSettings.save_to ++
      [Nat.repr wAsset.localDateTime.year, pad2 wAsset.localDateTime.month,
       pad2 wAsset.localDateTime.day, wAsset.originalFileName] ∧
    (pad2 wAsset.localDateTime.month).length = 2 ∧
    (pad2 wAsset.localDateTime.day).length = 2 ∧
    (Nat.repr wAsset.localDateTime.year).length = 4 :=
  destPath_formula wSettings wAsset (by decide) (by decide) (by decide)
    (by decide)

end ImmichPpdl
